import Mathlib

/-
Verification development for the minqlx extensibility core
(src/python/minqlx/_core.py): plugin lifecycle manager (load, unload,
reload, load_preset_plugins), the info-string decoder parse_variables,
the frame-scheduler wrappers next_frame and delay, and the thread-offload
guard thread.

Python dicts are modelled as insertion-ordered association lists with
string keys; external collaborators (file system, import machinery,
event listeners, cvars, the current thread) are passed explicitly.
-/

namespace Minqlx

/- Exception kinds raised by the embedded code.  pluginLoadError and
pluginUnloadError model the exception classes defined in _core.py
(lines 257-261); valueError models the ValueError raised by
parse_variables (line 74); exn models any other Python exception
(ImportError, a raising plugin constructor, ...). -/
inductive Err : Type where
  | pluginLoadError : String → Err
  | pluginUnloadError : String → Err
  | valueError : String → Err
  | exn : String → Err
deriving DecidableEq

/- Python dict assignment d[k] = v: replace the value in place when the
key is present (keeping its position), append otherwise. -/
def dictInsert {β : Type} (l : List (String × β)) (k : String) (v : β) : List (String × β) :=
  if l.any (fun kv => kv.1 == k) then
    l.map (fun kv => if kv.1 == k then (k, v) else kv)
  else
    l ++ [(k, v)]

/- Python del d[k]: drop the entry stored under key k. -/
def dictErase {β : Type} (l : List (String × β)) (k : String) : List (String × β) :=
  l.eraseP (fun kv => kv.1 == k)

/- Number of entries stored under key k. -/
def countKey {β : Type} (k : String) (l : List (String × β)) : Nat :=
  (l.filter (fun kv => kv.1 == k)).length

/- A hook record (event name, handler, priority), exactly the triple that
unload_plugin unpacks into remove_hook (line 316). -/
structure Hook where
  event : String
  handler : Nat
  priority : Nat
deriving DecidableEq

/- A command record; unload_plugin reads cmd.name and cmd.handler (line 320). -/
structure Command where
  name : String
  handler : Nat
deriving DecidableEq

/- A loaded plugin instance: its ledger of registered hooks and commands. -/
structure PluginInstance where
  hooks : List Hook
  commands : List Command
deriving DecidableEq

/-- Modelled from the spec: the Plugin capability remove_hook.  The Plugin
class itself is not part of src/; per the spec its removal operations undo
one prior registration exactly. -/
def remove_hook (hk : Hook) (a : PluginInstance) : PluginInstance :=
  { a with hooks := List.erase a.hooks hk }

/-- Modelled from the spec: the Plugin capability remove_command(name, handler).
The Plugin class itself is not part of src/; per the spec its removal
operations undo one prior registration exactly. -/
def remove_command (n : String) (h : Nat) (a : PluginInstance) : PluginInstance :=
  { a with commands := List.erase a.commands { name := n, handler := h } }

/- The two removal loops of unload_plugin (lines 314-320): every recorded
hook, then every recorded command, each removed via the plugin's own
removal operation. -/
def cleanup_instance (inst : PluginInstance) : PluginInstance :=
  let a1 := List.foldl (fun a hk => remove_hook hk a) inst inst.hooks
  List.foldl (fun a c => remove_command c.name c.handler a) a1 a1.commands

/- What load_plugin observes about an imported plugin module. -/
structure Module where
  hasPluginMember : Bool        -- hasattr(module, plugin), line 294
  memberIsPluginType : Bool     -- issubclass(plugin_class, minqlx.Plugin), line 298
  ctor : Option PluginInstance  -- plugin_class(); none models a raising constructor
deriving DecidableEq

/- The mutable interpreter state touched by the loader. -/
structure CoreState where
  loaded_plugins : List (String × PluginInstance)  -- minqlx.Plugin._loaded_plugins
  modules : List (String × Module)                 -- _modules, the ModuleCache
  sysModules : List (String × Module)              -- sys.modules, keyed by "dir.plugin"
  events : List (String × List (String × PluginInstance))
    -- dispatched unload events: (plugin name, the registry listeners observe)
deriving DecidableEq

/- External collaborators: file system, import machinery, the unload event
listeners, and the cvar configuration read by load_preset_plugins. -/
structure Env where
  fileExists : String → Bool           -- os.path.isfile(plugins_path, p + ".py")
  importMod : String → Option Module   -- executing the module file; none = import raises
  reloadMod : String → Module → Option Module  -- importlib.reload; none = reload raises
  unloadDispatchErr : String → Option Err
    -- the "unload" event dispatch; some e models a raising dispatch
  pluginsDirExists : Bool              -- os.path.isdir(plugins_path)
  pluginsPathAbs : String              -- os.path.abspath of qlx_pluginsPath
  pluginsDir : String                  -- os.path.basename(plugins_path)
  pluginsCvar : String                 -- the qlx_plugins cvar

/- Registry wellformedness: dict keys are unique, as in every Python dict. -/
def WF (s : CoreState) : Prop :=
  (s.loaded_plugins.map Prod.fst).Nodup

/- The fully qualified module name "pluginsdir.plugin". -/
def qualName (env : Env) (p : String) : String :=
  env.pluginsDir ++ (".") ++ p

/- importlib.import_module on "dir.plugin": returns the sys.modules entry
when present, otherwise executes the module file and caches it there. -/
def importModule (env : Env) (p : String) (s : CoreState) : Option (Module × CoreState) :=
  match List.lookup (qualName env p) s.sysModules with
  | some m => some (m, s)
  | none =>
    match env.importMod p with
    | some m => some (m, { s with sysModules := dictInsert s.sysModules (qualName env p) m })
    | none => none

/- unload_plugin (lines 306-327).  On success the unload event is
dispatched first, while the registry still holds the plugin (the event
records the registry listeners observe); then every hook and command is
removed via the plugin's own removal operations; finally the registry
entry is deleted.  The dictInsert mirrors the in-place mutation of the
registered instance before its entry is deleted. -/
def unload_plugin (env : Env) (p : String) (s : CoreState) : CoreState × Option Err :=
  match List.lookup p s.loaded_plugins with
  | some inst =>
    match env.unloadDispatchErr p with
    | some e => (s, some e)
    | none =>
      let s1 : CoreState := { s with events := s.events ++ [(p, s.loaded_plugins)] }
      let s2 : CoreState :=
        { s1 with loaded_plugins :=
            dictErase (dictInsert s1.loaded_plugins p (cleanup_instance inst)) p }
      (s2, none)
  | none => (s, some (Err.pluginUnloadError ("Attempted to unload a plugin that is not loaded.")))

mutual

/- load_plugin (lines 277-304), with a fuel argument that makes the
load/reload mutual recursion structurally terminating.  The fuel never
runs out on a reachable path: see load_plugin below. -/
def load_pluginF : Nat → Env → String → CoreState → CoreState × Option Err
  | 0, _, _, s => (s, some (Err.exn ("out of fuel")))
  | Nat.succ f, env, p, s =>
    if env.fileExists p = false then
      (s, some (Err.pluginLoadError ("No such plugin exists.")))
    else if (List.lookup p s.loaded_plugins).isSome then
      reload_pluginF f env p s
    else
      match importModule env p s with
      | none => (s, some (Err.exn ("import raised")))
      | some (m, s1) =>
        -- the module is cached before instantiation is attempted (line 292)
        let s2 : CoreState := { s1 with modules := dictInsert s1.modules p m }
        if m.hasPluginMember = false then
          (s2, some (Err.pluginLoadError
            ("The plugin needs to have a class with the exact name as the file, minus the .py.")))
        else if m.memberIsPluginType then
          match m.ctor with
          | some inst =>
            ({ s2 with loaded_plugins := dictInsert s2.loaded_plugins p inst }, none)
          | none => (s2, some (Err.exn ("plugin constructor raised")))
        else
          (s2, some (Err.pluginLoadError
            ("Attempted to load a plugin that is not a subclass of minqlx.Plugin.")))

/- reload_plugin (lines 329-342): unload first (only a PluginUnloadError
is swallowed), re-execute the cached module in place when one exists
(updating both _modules and sys.modules, which hold the same object),
then load. -/
def reload_pluginF : Nat → Env → String → CoreState → CoreState × Option Err
  | 0, _, _, s => (s, some (Err.exn ("out of fuel")))
  | Nat.succ f, env, p, s =>
    match unload_plugin env p s with
    | (s1, some (Err.pluginUnloadError _)) =>
      (match List.lookup p s1.modules with
       | some m =>
         match env.reloadMod p m with
         | some m2 =>
           load_pluginF f env p
             { s1 with modules := dictInsert s1.modules p m2,
                       sysModules := dictInsert s1.sysModules (qualName env p) m2 }
         | none => (s1, some (Err.exn ("module reload raised")))
       | none => load_pluginF f env p s1)
    | (s1, some e) => (s1, some e)
    | (s1, none) =>
      (match List.lookup p s1.modules with
       | some m =>
         match env.reloadMod p m with
         | some m2 =>
           load_pluginF f env p
             { s1 with modules := dictInsert s1.modules p m2,
                       sysModules := dictInsert s1.sysModules (qualName env p) m2 }
         | none => (s1, some (Err.exn ("module reload raised")))
       | none => load_pluginF f env p s1)

end

/- Fuel-instantiated entry points.  Three units of fuel cover every
reachable call chain: load redirects to reload at most once, because the
unload inside reload removes the registry entry before load runs again. -/
def load_plugin (env : Env) (p : String) (s : CoreState) : CoreState × Option Err :=
  load_pluginF 3 env p s

def reload_plugin (env : Env) (p : String) (s : CoreState) : CoreState × Option Err :=
  reload_pluginF 2 env p s

/- The filtered list of load_preset_plugins (line 270): entries of the
comma-split cvar whose directory-qualified, unstripped names are not
already in sys.modules; kept entries are stripped. -/
def presetList (env : Env) (s : CoreState) : List String :=
  (env.pluginsCvar.splitOn (",")).filterMap
    (fun q =>
      if (List.lookup (env.pluginsDir ++ (".") ++ q) s.sysModules).isSome then none
      else some q.trim)

/- The loading loop of load_preset_plugins (lines 271-272): load each
name in order; a raising load stops the loop and propagates. -/
def runLoads (env : Env) : List String → CoreState → CoreState × Option Err
  | [], s => (s, none)
  | q :: qs, s =>
    match load_plugin env q.trim s with
    | (s1, none) => runLoads env qs s1
    | (s1, some e) => (s1, some e)

/- load_preset_plugins (lines 263-275).  The source wraps the path in the
failure message in single quotes; the quotes are omitted here. -/
def load_preset_plugins (env : Env) (s : CoreState) : CoreState × Option Err :=
  if env.pluginsDirExists then
    runLoads env
      ((env.pluginsCvar.splitOn (",")).filterMap
        (fun q =>
          if (List.lookup (env.pluginsDir ++ (".") ++ q) s.sysModules).isSome then none
          else some q.trim))
      s
  else
    (s, some (Err.pluginLoadError
      (("Cannot find the plugins directory ") ++ env.pluginsPathAbs ++ ("."))))

/- The pairing loop of parse_variables (lines 71-72): two tokens at a
time, res[vars[i]] = vars[i + 1]; an odd tail raises IndexError, caught
by the bare except on line 73. -/
def infoLoop : List String → List (String × String) → Option (List (String × String))
  | [], res => some res
  | [_], _ => none
  | k :: v :: rest, res => infoLoop rest (dictInsert res k v)

/- Python str.split on a one-character separator: no collapsing of empty
pieces, and the empty string splits to [""].  Written structurally over
the character list so that concrete decodings reduce inside the kernel. -/
def splitOnChar (c : Char) : List Char → List (List Char)
  | [] => [[]]
  | x :: xs =>
    match splitOnChar c xs with
    | [] => [[]]
    | y :: ys => if x == c then [] :: y :: ys else (x :: y) :: ys

/- The token list of parse_variables (line 69):
varstr.lstrip(backslash).split(backslash). -/
def infoTokens (varstr : String) : List String :=
  (splitOnChar ('\\') (varstr.data.dropWhile (fun c => c == '\\'))).map
    (fun cs => String.mk cs)

/- parse_variables (lines 51-76).  The guard "not varstr.strip()" holds
exactly when every character is whitespace (including the empty string).
Python dict and OrderedDict both preserve insertion order, so both
branches share the association-list model; the ordered flag is
behaviourally inert. -/
def parse_variables (varstr : String) (ordered : Bool) : Except Err (List (String × String)) :=
  if varstr.data.all (fun c => c.isWhitespace) then Except.ok []
  else
    match infoLoop (infoTokens varstr) [] with
    | some res => Except.ok res
    | none => Except.error (Err.valueError (("Uneven number of keys and values: ") ++ varstr))

/- Consecutive (key, value) pairs of a token list, as the spec words them. -/
def chunkPairs : List String → List (String × String)
  | k :: v :: rest => (k, v) :: chunkPairs rest
  | _ => []

/- A scheduled task: fire time, priority, insertion sequence number, and
an opaque callback identifier (the embedding does not execute callbacks). -/
structure Task where
  time : Nat
  priority : Nat
  seq : Nat
  cb : Nat
deriving DecidableEq

/- The frame_tasks scheduler state. -/
structure Sched where
  queue : List Task
  seqc : Nat
deriving DecidableEq

/- sched.scheduler.enter(delay, priority, action, ...): enqueue a task
firing d time units after now, tagged with the next sequence number. -/
def enter (d priority cb now : Nat) (s : Sched) : Sched :=
  { queue := s.queue ++ [{ time := now + d, priority := priority, seq := s.seqc, cb := cb }],
    seqc := s.seqc + 1 }

/- next_frame (lines 177-181): the wrapped call performs
frame_tasks.enter(0, 0, func, args, kwargs). -/
def next_frame (cb now : Nat) (s : Sched) : Sched :=
  enter 0 0 cb now s

/- delay (lines 183-201): the wrapped call performs
frame_tasks.enter(time, 0, func, args, kwargs). -/
def delay (time cb now : Nat) (s : Sched) : Sched :=
  enter time 0 cb now s

/- Lexicographic (fire time, priority, sequence) order on tasks. -/
def taskKeyLe (a b : Task) : Bool :=
  decide (a.time < b.time) ||
    (decide (a.time = b.time) &&
      (decide (a.priority < b.priority) ||
        (decide (a.priority = b.priority) && decide (a.seq ≤ b.seq))))

def insertSorted (t : Task) : List Task → List Task
  | [] => [t]
  | u :: us => if taskKeyLe t u then t :: u :: us else u :: insertSorted t us

def sortTasks (l : List Task) : List Task :=
  List.foldr insertSorted [] l

/-- Modelled from the spec: FrameScheduler.pump.  The host-side per-tick
pump of minqlx.frame_tasks is not part of src/.  Per the spec it pops and
executes every task whose fire time has elapsed, in (fire time, priority,
sequence) order, and a task enqueued during a pump is only visible to the
next pump (run-next-tick work never fires on the pump that scheduled it). -/
def pump (now : Nat) (s : Sched) : List Task × Sched :=
  (sortTasks (s.queue.filter (fun t => decide (t.time ≤ now))),
   { queue := s.queue.filter (fun t => !decide (t.time ≤ now)), seqc := s.seqc })

/- _thread_name = "minqlxthread" (line 204).  Python strings are modelled
as character lists so that endswith is a plain suffix test. -/
def _thread_name : List Char := String.data ("minqlxthread")

/- str.endswith: a suffix test. -/
def pyEndsWith (s suffix : List Char) : Bool :=
  decide (suffix <:+ s)

/- The name given to a spawned thread (line 223):
func.__name__ + "-" + str(_thread_count) + "-" + _thread_name. -/
def threadSpawnName (funcName : List Char) (count : Nat) : List Char :=
  funcName ++ ('-' :: String.data (toString count)) ++ ('-' :: _thread_name)

/- thread (lines 206-230): thread(func, force) returns a wrapper f; this
models one invocation of f.  Inputs beyond the decorator arguments: the
current thread's name and the global _thread_count.  Output: the spawned
thread's name (none when the callable ran inline on the current thread)
and the updated counter. -/
def thread (funcName : List Char) (force : Bool) (curThread : List Char) (count : Nat) :
    Option (List Char) × Nat :=
  if !force && pyEndsWith curThread _thread_name then
    (none, count)
  else
    (some (threadSpawnName funcName count), count + 1)

/- ============ Concrete fixtures used by witnesses ============ -/

def hookA : Hook := { event := ("frame"), handler := 1, priority := 0 }

def hookB : Hook := { event := ("map"), handler := 2, priority := 5 }

def cmdA : Command := { name := ("hello"), handler := 3 }

def instA : PluginInstance := { hooks := [hookA, hookB], commands := [cmdA] }

def moduleGood : Module :=
  { hasPluginMember := true, memberIsPluginType := true, ctor := some instA }

def moduleNoCtor : Module :=
  { hasPluginMember := true, memberIsPluginType := true, ctor := none }

def stateEmpty : CoreState :=
  { loaded_plugins := [], modules := [], sysModules := [], events := [] }

def stateLoaded : CoreState :=
  { loaded_plugins := [(("p"), instA)], modules := [(("p"), moduleGood)],
    sysModules := [(("minqlx-plugins.p"), moduleGood)], events := [] }

def stateReloaded : CoreState :=
  { loaded_plugins := [(("p"), instA)], modules := [(("p"), moduleGood)],
    sysModules := [(("minqlx-plugins.p"), moduleGood)],
    events := [(("p"), [(("p"), instA)])] }

def envGood : Env :=
  { fileExists := fun _ => true, importMod := fun _ => some moduleGood,
    reloadMod := fun _ m => some m, unloadDispatchErr := fun _ => none,
    pluginsDirExists := true, pluginsPathAbs := ("/abs/minqlx-plugins"),
    pluginsDir := ("minqlx-plugins"), pluginsCvar := ("p") }

def envNoFile : Env := { envGood with fileExists := fun _ => false }

def envBadCtor : Env := { envGood with importMod := fun _ => some moduleNoCtor }

def envDispatchBoom : Env :=
  { envGood with unloadDispatchErr := fun _ => some (Err.exn ("boom")) }

def envNoDir : Env := { envGood with pluginsDirExists := false }

/- Recognizer for the PluginLoadError kind (used to compare the code's
missing-directory failure against the spec's error-kind claim). -/
def isPluginLoadError : Option Err → Bool
  | some (Err.pluginLoadError _) => true
  | _ => false

def fnW : List Char := String.data ("worker")

def gnW : List Char := String.data ("inner")

def mainW : List Char := String.data ("MainThread")

def schedW : Sched := { queue := [], seqc := 0 }

/- ================= Lemmas about the dict model ================= -/

theorem keys_dictInsert_of_mem {β : Type} (l : List (String × β)) (k : String) (v : β)
    (h : l.any (fun kv => kv.1 == k)) :
    (dictInsert l k v).map Prod.fst = l.map Prod.fst := by
  unfold dictInsert
  rw [if_pos h]
  clear h
  induction l with
  | nil => rfl
  | cons kv t ih =>
    obtain ⟨a, b⟩ := kv
    simp only [List.map_cons, List.cons.injEq]
    constructor
    · cases hb : (a == k) with
      | true => have ha : a = k := eq_of_beq hb; simp [hb, ha]
      | false => simp [hb]
    · exact ih

theorem keys_dictInsert_of_not_mem {β : Type} (l : List (String × β)) (k : String) (v : β)
    (h : ¬ l.any (fun kv => kv.1 == k)) :
    (dictInsert l k v).map Prod.fst = l.map Prod.fst ++ [k] := by
  unfold dictInsert
  rw [if_neg h]
  simp

theorem not_mem_keys_of_any_false {β : Type} (l : List (String × β)) (k : String)
    (h : ¬ l.any (fun kv => kv.1 == k)) :
    k ∉ l.map Prod.fst := by
  intro hk
  apply h
  simp only [List.any_eq_true]
  obtain ⟨kv, hkv, hfst⟩ := List.mem_map.mp hk
  exact ⟨kv, hkv, by simp [hfst]⟩

theorem nodup_keys_dictInsert {β : Type} (l : List (String × β)) (k : String) (v : β)
    (h : (l.map Prod.fst).Nodup) :
    ((dictInsert l k v).map Prod.fst).Nodup := by
  by_cases hmem : l.any (fun kv => kv.1 == k)
  · rw [keys_dictInsert_of_mem l k v hmem]; exact h
  · rw [keys_dictInsert_of_not_mem l k v hmem]
    rw [List.nodup_append]
    exact ⟨h, List.nodup_singleton k,
      fun a ha hb => (List.mem_singleton.mp hb ▸ not_mem_keys_of_any_false l k hmem) ha⟩

theorem lookup_dictInsert_self {β : Type} (l : List (String × β)) (k : String) (v : β) :
    List.lookup k (dictInsert l k v) = some v := by
  unfold dictInsert
  by_cases h : l.any (fun kv => kv.1 == k)
  · rw [if_pos h]
    induction l with
    | nil => simp at h
    | cons kv t ih =>
      obtain ⟨a, b⟩ := kv
      simp only [List.any_cons] at h
      cases hb : (a == k) with
      | true =>
        simp only [List.map_cons]
        rw [if_pos hb]
        simp [List.lookup]
      | false =>
        have hk : (k == a) = false := by
          simp only [beq_eq_false_iff_ne] at hb ⊢
          exact Ne.symm hb
        simp only [List.map_cons]
        rw [if_neg (by simp [hb])]
        simp only [List.lookup, hk]
        apply ih
        rcases (Bool.or_eq_true _ _).mp h with hc | hc
        · simp only [hb] at hc
          exact absurd hc (by simp)
        · exact hc
  · rw [if_neg h]
    simp only [List.any_eq_true, not_exists, not_and] at h
    induction l with
    | nil => simp [List.lookup]
    | cons kv t ih =>
      obtain ⟨a, b⟩ := kv
      have hb : (a == k) = false := by
        have := h (a, b) (List.mem_cons_self _ _)
        simpa using this
      have hk : (k == a) = false := by
        simp only [beq_eq_false_iff_ne] at hb ⊢
        exact Ne.symm hb
      simp only [List.cons_append, List.lookup, hk]
      exact ih (fun x hx => h x (List.mem_cons_of_mem _ hx))

theorem lookup_dictInsert_ne {β : Type} (l : List (String × β)) (k q : String) (v : β)
    (hq : q ≠ k) :
    List.lookup q (dictInsert l k v) = List.lookup q l := by
  unfold dictInsert
  by_cases h : l.any (fun kv => kv.1 == k)
  · rw [if_pos h]
    clear h
    induction l with
    | nil => rfl
    | cons kv t ih =>
      obtain ⟨a, b⟩ := kv
      cases hb : (a == k) with
      | true =>
        have ha : a = k := eq_of_beq hb
        have hq2 : (q == a) = false := by simp [ha, hq]
        have hq3 : (q == k) = false := by simp [hq]
        simp only [List.map_cons]
        rw [if_pos hb]
        simp only [List.lookup, hq2, hq3]
        exact ih
      | false =>
        simp only [List.map_cons]
        rw [if_neg (by simp [hb])]
        simp only [List.lookup]
        cases hqv : q == a with
        | true => simp only [hqv]
        | false => simp only [hqv]; exact ih
  · rw [if_neg h]
    clear h
    have hqk : (q == k) = false := by
      simp only [beq_eq_false_iff_ne]
      exact hq
    induction l with
    | nil => simp [List.lookup, hqk]
    | cons kv t ih =>
      obtain ⟨a, b⟩ := kv
      simp only [List.cons_append, List.lookup]
      cases hqv : q == a with
      | true => simp only [hqv]
      | false => simp only [hqv]; exact ih

theorem nodup_keys_dictErase {β : Type} (l : List (String × β)) (k : String)
    (h : (l.map Prod.fst).Nodup) :
    ((dictErase l k).map Prod.fst).Nodup :=
  h.sublist ((List.eraseP_sublist l).map Prod.fst)

theorem lookup_not_mem_keys {β : Type} (l : List (String × β)) (k : String)
    (h : k ∉ l.map Prod.fst) :
    List.lookup k l = none := by
  induction l with
  | nil => rfl
  | cons kv t ih =>
    obtain ⟨a, b⟩ := kv
    simp only [List.map_cons, List.mem_cons] at h
    have hk : (k == a) = false := by
      simp only [beq_eq_false_iff_ne]
      exact fun hc => h (Or.inl hc)
    simp only [List.lookup, hk]
    exact ih (fun hc => h (Or.inr hc))

theorem lookup_dictErase_self {β : Type} (l : List (String × β)) (k : String)
    (h : (l.map Prod.fst).Nodup) :
    List.lookup k (dictErase l k) = none := by
  unfold dictErase
  induction l with
  | nil => rfl
  | cons kv t ih =>
    obtain ⟨a, b⟩ := kv
    simp only [List.map_cons, List.nodup_cons] at h
    simp only [List.eraseP_cons]
    cases hb : (a == k) with
    | true =>
      have ha : a = k := eq_of_beq hb
      simp only [cond_true]
      exact lookup_not_mem_keys t k (ha ▸ h.1)
    | false =>
      have hk : (k == a) = false := by
        simp only [beq_eq_false_iff_ne] at hb ⊢
        exact Ne.symm hb
      simp only [cond_false, List.lookup, hk]
      exact ih h.2

theorem lookup_dictErase_ne {β : Type} (l : List (String × β)) (k q : String)
    (hq : q ≠ k) :
    List.lookup q (dictErase l k) = List.lookup q l := by
  unfold dictErase
  induction l with
  | nil => rfl
  | cons kv t ih =>
    obtain ⟨a, b⟩ := kv
    simp only [List.eraseP_cons]
    cases hb : (a == k) with
    | true =>
      have ha : a = k := eq_of_beq hb
      have hq2 : (q == a) = false := by simp [ha, hq]
      simp only [cond_true, List.lookup, hq2]
    | false =>
      simp only [cond_false, List.lookup]
      cases hqv : q == a with
      | true => simp only [hqv]
      | false => simp only [hqv]; exact ih

theorem countKey_eq_zero_of_not_mem {β : Type} (l : List (String × β)) (k : String)
    (h : k ∉ l.map Prod.fst) :
    countKey k l = 0 := by
  unfold countKey
  rw [List.filter_eq_nil_iff.mpr, List.length_nil]
  intro kv hkv hc
  exact h (List.mem_map.mpr ⟨kv, hkv, eq_of_beq hc⟩)

theorem countKey_eq_one_of_nodup_mem {β : Type} (l : List (String × β)) (k : String)
    (hnd : (l.map Prod.fst).Nodup) (hmem : k ∈ l.map Prod.fst) :
    countKey k l = 1 := by
  induction l with
  | nil => simp at hmem
  | cons kv t ih =>
    obtain ⟨a, b⟩ := kv
    simp only [List.map_cons, List.nodup_cons] at hnd
    simp only [List.map_cons, List.mem_cons] at hmem
    unfold countKey
    simp only [List.filter_cons]
    cases hb : (a == k) with
    | true =>
      have ha : a = k := eq_of_beq hb
      have hnt : k ∉ t.map Prod.fst := ha ▸ hnd.1
      rw [if_pos rfl, List.length_cons]
      have := countKey_eq_zero_of_not_mem t k hnt
      unfold countKey at this
      omega
    | false =>
      have hne : a ≠ k := by simpa using hb
      have hmt : k ∈ t.map Prod.fst := by
        rcases hmem with hk | hk
        · exact absurd hk.symm hne
        · exact hk
      rw [if_neg (by simp)]
      exact ih hnd.2 hmt

theorem mem_keys_dictInsert_self {β : Type} (l : List (String × β)) (k : String) (v : β) :
    k ∈ (dictInsert l k v).map Prod.fst := by
  by_cases h : l.any (fun kv => kv.1 == k)
  · rw [keys_dictInsert_of_mem l k v h]
    rcases List.any_eq_true.mp h with ⟨kv, hkv, hb⟩
    exact List.mem_map.mpr ⟨kv, hkv, by simpa using hb⟩
  · rw [keys_dictInsert_of_not_mem l k v h]
    simp

theorem countKey_dictInsert_self {β : Type} (l : List (String × β)) (k : String) (v : β)
    (hnd : (l.map Prod.fst).Nodup) :
    countKey k (dictInsert l k v) = 1 :=
  countKey_eq_one_of_nodup_mem _ _ (nodup_keys_dictInsert l k v hnd)
    (mem_keys_dictInsert_self l k v)

/- ============ Lemmas about the unload removal loops ============ -/

theorem foldl_erase_self {α : Type} [DecidableEq α] (l : List α) :
    List.foldl (fun acc x => List.erase acc x) l l = [] := by
  induction l with
  | nil => rfl
  | cons h t ih =>
    simp only [List.foldl_cons]
    rw [List.erase_cons_head]
    exact ih

theorem hooks_removal_spec : ∀ (l : List Hook) (a : PluginInstance),
    (List.foldl (fun a hk => remove_hook hk a) a l).hooks
        = List.foldl (fun acc x => List.erase acc x) a.hooks l
      ∧ (List.foldl (fun a hk => remove_hook hk a) a l).commands = a.commands := by
  intro l
  induction l with
  | nil => exact fun a => ⟨rfl, rfl⟩
  | cons hk t ih =>
    intro a
    simp only [List.foldl_cons]
    obtain ⟨h1, h2⟩ := ih (remove_hook hk a)
    exact ⟨h1, h2⟩

theorem commands_removal_spec : ∀ (l : List Command) (a : PluginInstance),
    (List.foldl (fun a c => remove_command c.name c.handler a) a l).commands
        = List.foldl (fun acc x => List.erase acc x) a.commands l
      ∧ (List.foldl (fun a c => remove_command c.name c.handler a) a l).hooks = a.hooks := by
  intro l
  induction l with
  | nil => exact fun a => ⟨rfl, rfl⟩
  | cons c t ih =>
    intro a
    simp only [List.foldl_cons]
    obtain ⟨h1, h2⟩ := ih (remove_command c.name c.handler a)
    exact ⟨h1, h2⟩

theorem cleanup_instance_empty (inst : PluginInstance) :
    (cleanup_instance inst).hooks = [] ∧ (cleanup_instance inst).commands = [] := by
  unfold cleanup_instance
  obtain ⟨h1, h2⟩ := hooks_removal_spec inst.hooks inst
  have ha1 : (List.foldl (fun a hk => remove_hook hk a) inst inst.hooks).hooks = [] := by
    rw [h1]
    exact foldl_erase_self inst.hooks
  obtain ⟨g1, g2⟩ :=
    commands_removal_spec (List.foldl (fun a hk => remove_hook hk a) inst inst.hooks).commands
      (List.foldl (fun a hk => remove_hook hk a) inst inst.hooks)
  constructor
  · rw [g2]
    exact ha1
  · rw [g1]
    exact foldl_erase_self _

/- ============ State lemmas for the loader ============ -/

theorem importModule_state (env : Env) (p : String) (s : CoreState) (m : Module)
    (s1 : CoreState) (h : importModule env p s = some (m, s1)) :
    s1.loaded_plugins = s.loaded_plugins ∧ s1.modules = s.modules ∧ s1.events = s.events := by
  unfold importModule at h
  split at h
  · rw [Option.some.injEq, Prod.mk.injEq] at h
    obtain ⟨-, rfl⟩ := h
    exact ⟨rfl, rfl, rfl⟩
  · split at h
    · rw [Option.some.injEq, Prod.mk.injEq] at h
      obtain ⟨-, rfl⟩ := h
      exact ⟨rfl, rfl, rfl⟩
    · simp at h

theorem WF_unload (env : Env) (p : String) (s : CoreState) (h : WF s) :
    WF (unload_plugin env p s).1 := by
  unfold unload_plugin
  split
  · split
    · exact h
    · exact nodup_keys_dictErase _ _ (nodup_keys_dictInsert _ _ _ h)
  · exact h

theorem load_fresh_fuel (env : Env) (p : String) (s : CoreState)
    (h : List.lookup p s.loaded_plugins = none) (n m : Nat) :
    load_pluginF (n + 1) env p s = load_pluginF (m + 1) env p s := by
  simp only [load_pluginF, h, Option.isSome_none, Bool.false_eq_true, if_false]

theorem loadF_reloadF_ok : ∀ fuel : Nat,
    (∀ env p s s2, WF s → load_pluginF fuel env p s = (s2, none) →
      countKey p s2.loaded_plugins = 1 ∧ WF s2) ∧
    (∀ env p s s2, WF s → reload_pluginF fuel env p s = (s2, none) →
      countKey p s2.loaded_plugins = 1 ∧ WF s2) := by
  intro fuel
  induction fuel with
  | zero =>
    constructor <;> intro env p s s2 _ h <;> simp [load_pluginF, reload_pluginF] at h
  | succ f ih =>
    obtain ⟨ihL, ihR⟩ := ih
    constructor
    · intro env p s s2 hWF h
      simp only [load_pluginF] at h
      split at h
      · simp at h
      · split at h
        · exact ihR env p s s2 hWF h
        · split at h
          · simp at h
          · rename_i m s1 heq
            obtain ⟨hload, -, -⟩ := importModule_state env p s m s1 heq
            split at h
            · simp at h
            · split at h
              · split at h
                · rename_i inst hctor
                  rw [Prod.mk.injEq] at h
                  obtain ⟨h1, -⟩ := h
                  subst h1
                  constructor
                  · apply countKey_dictInsert_self
                    show ((s1.loaded_plugins).map Prod.fst).Nodup
                    rw [hload]
                    exact hWF
                  · apply nodup_keys_dictInsert
                    show ((s1.loaded_plugins).map Prod.fst).Nodup
                    rw [hload]
                    exact hWF
                · simp at h
              · simp at h
    · intro env p s s2 hWF h
      simp only [reload_pluginF] at h
      split at h
      · rename_i s1 msg heq
        have hWF1 : WF s1 := by
          have := WF_unload env p s hWF
          rw [heq] at this
          exact this
        split at h
        · split at h
          · refine (ihL env p _ s2 ?_ h)
            exact hWF1
          · simp at h
        · exact ihL env p s1 s2 hWF1 h
      · simp at h
      · rename_i s1 heq
        have hWF1 : WF s1 := by
          have := WF_unload env p s hWF
          rw [heq] at this
          exact this
        split at h
        · split at h
          · refine (ihL env p _ s2 ?_ h)
            exact hWF1
          · simp at h
        · exact ihL env p s1 s2 hWF1 h

theorem load_plugin_ok (env : Env) (p : String) (s s2 : CoreState) (hWF : WF s)
    (h : load_plugin env p s = (s2, none)) :
    countKey p s2.loaded_plugins = 1 ∧ WF s2 :=
  (loadF_reloadF_ok 3).1 env p s s2 hWF h

/- ============ Lemmas about the scheduler model ============ -/

theorem mem_insertSorted (t x : Task) : ∀ l : List Task,
    x ∈ insertSorted t l ↔ x = t ∨ x ∈ l := by
  intro l
  induction l with
  | nil => simp [insertSorted]
  | cons u us ih =>
    unfold insertSorted
    by_cases hc : taskKeyLe t u = true
    · rw [if_pos hc]
      simp [List.mem_cons]
    · rw [if_neg hc]
      simp only [List.mem_cons, ih]
      tauto

theorem mem_sortTasks (x : Task) (l : List Task) :
    x ∈ sortTasks l ↔ x ∈ l := by
  unfold sortTasks
  induction l with
  | nil => simp
  | cons u us ih =>
    simp only [List.foldr_cons, mem_insertSorted, ih, List.mem_cons]

/- ============ Lemma about spawned thread names ============ -/

theorem threadSpawnName_marked (funcName : List Char) (count : Nat) :
    pyEndsWith (threadSpawnName funcName count) _thread_name = true := by
  unfold pyEndsWith threadSpawnName
  simp only [decide_eq_true_eq]
  have h2 : funcName ++ ('-' :: String.data (toString count)) ++ ('-' :: _thread_name)
      = (funcName ++ ('-' :: String.data (toString count)) ++ ['-']) ++ _thread_name := by
    simp
  rw [h2]
  exact List.suffix_append _ _

/- ============ Characterization of the parse_variables loop ============ -/

theorem infoLoop_boundedSpec : ∀ (n : Nat) (l : List String), l.length ≤ n → ∀ acc,
    infoLoop l acc =
      if l.length % 2 = 0
      then some (List.foldl (fun r kv => dictInsert r kv.1 kv.2) acc (chunkPairs l))
      else none := by
  intro n
  induction n with
  | zero =>
    intro l hl acc
    have hz : l = [] := List.length_eq_zero.mp (Nat.le_zero.mp hl)
    subst hz
    simp [infoLoop, chunkPairs]
  | succ n ih =>
    intro l hl acc
    rcases l with _ | ⟨k, _ | ⟨v, rest⟩⟩
    · simp [infoLoop, chunkPairs]
    · simp [infoLoop, chunkPairs]
    · simp only [List.length_cons] at hl
      simp only [infoLoop]
      rw [ih rest (by omega) (dictInsert acc k v)]
      have hmod : (rest.length + 1 + 1) % 2 = rest.length % 2 := by omega
      simp only [List.length_cons, chunkPairs, List.foldl_cons, hmod]

theorem infoLoop_spec (l : List String) (acc : List (String × String)) :
    infoLoop l acc =
      if l.length % 2 = 0
      then some (List.foldl (fun r kv => dictInsert r kv.1 kv.2) acc (chunkPairs l))
      else none :=
  infoLoop_boundedSpec l.length l le_rfl acc

/- ======================= Claim theorems ======================= -/

/-- Claim C9: for every name not present in the registry, unload_plugin fails
with PluginUnloadError and leaves the whole interpreter state, in particular
the registry and every plugin's hook and command records, unchanged. -/
theorem c9_unload_not_loaded (env : Env) (p : String) (s : CoreState)
    (h : List.lookup p s.loaded_plugins = none) :
    unload_plugin env p s
      = (s, some (Err.pluginUnloadError
          ("Attempted to unload a plugin that is not loaded."))) := by
  unfold unload_plugin
  rw [h]

/-- Witness for C9 at a concrete never-loaded name. -/
theorem c9_unload_not_loaded_w :
    unload_plugin envGood ("q") stateEmpty
      = (stateEmpty, some (Err.pluginUnloadError
          ("Attempted to unload a plugin that is not loaded."))) :=
  c9_unload_not_loaded envGood ("q") stateEmpty (by rfl)

/-- Claim C10: in load_plugin the missing-source-file check takes precedence
over the already-loaded redirect: for a name present in the registry whose
source file no longer exists, load_plugin raises PluginLoadError without
redirecting to reload_plugin, and the registry entry stays in place. -/
theorem c10_missing_file_precedence (env : Env) (p : String) (s : CoreState)
    (inst : PluginInstance) (hmem : List.lookup p s.loaded_plugins = some inst)
    (hfile : env.fileExists p = false) :
    load_plugin env p s = (s, some (Err.pluginLoadError ("No such plugin exists.")))
      ∧ List.lookup p s.loaded_plugins = some inst := by
  refine ⟨?_, hmem⟩
  unfold load_plugin
  show load_pluginF (Nat.succ 2) env p s = _
  simp only [load_pluginF, hfile]
  simp

/-- Witness for C10: a registry entry whose source file is gone. -/
theorem c10_missing_file_precedence_w :
    load_plugin envNoFile ("p") stateLoaded
        = (stateLoaded, some (Err.pluginLoadError ("No such plugin exists.")))
      ∧ List.lookup ("p") stateLoaded.loaded_plugins = some instA :=
  c10_missing_file_precedence envNoFile ("p") stateLoaded instA (by decide) (by rfl)

/-- Claim C5: for every callable wrapped by thread, a normal invocation from a
context without the offload marker spawns exactly one new execution unit, the
spawned unit's name carries the offload marker, an invocation from inside such
a unit without force runs inline and spawns nothing (one spawned unit in
total), and an invocation with force always spawns (two spawned units in
total, the counter advancing to count + 2). -/
theorem c5_thread_offload (funcName gname curName : List Char) (count : Nat)
    (hcur : pyEndsWith curName _thread_name = false) :
    thread funcName false curName count
        = (some (threadSpawnName funcName count), count + 1)
      ∧ pyEndsWith (threadSpawnName funcName count) _thread_name = true
      ∧ thread gname false (threadSpawnName funcName count) (count + 1) = (none, count + 1)
      ∧ thread gname true (threadSpawnName funcName count) (count + 1)
          = (some (threadSpawnName gname (count + 1)), count + 2) := by
  refine ⟨?_, threadSpawnName_marked funcName count, ?_, ?_⟩
  · unfold thread
    rw [hcur]
    rfl
  · unfold thread
    rw [threadSpawnName_marked]
    rfl
  · unfold thread
    rfl

/-- Witness for C5 at a concrete callable called from the main thread. -/
theorem c5_thread_offload_w :
    thread fnW false mainW 0 = (some (threadSpawnName fnW 0), 1)
      ∧ pyEndsWith (threadSpawnName fnW 0) _thread_name = true
      ∧ thread gnW false (threadSpawnName fnW 0) 1 = (none, 1)
      ∧ thread gnW true (threadSpawnName fnW 0) 1 = (some (threadSpawnName gnW 1), 2) :=
  c5_thread_offload fnW gnW mainW 0 (by decide)

/-- Claim C6: parse_variables returns the empty mapping on empty or
whitespace-only input; on an even number of backslash-delimited tokens (after
stripping the optional leading backslashes) it returns the mapping of the
consecutive (key, value) pairs; on an odd token count it fails with the
decode error (the spec's MalformedInfoString, a Python ValueError here)
echoing the offending input.  The concrete conjunct checks the ordered
variant on the spec's example, with keys in encounter order. -/
theorem c6_parse_variables_spec :
    (∀ (varstr : String) (ordered : Bool),
      parse_variables varstr ordered =
        if varstr.data.all (fun c => c.isWhitespace) then Except.ok []
        else if (infoTokens varstr).length % 2 = 0 then
          Except.ok (List.foldl (fun r kv => dictInsert r kv.1 kv.2) []
            (chunkPairs (infoTokens varstr)))
        else
          Except.error (Err.valueError (("Uneven number of keys and values: ") ++ varstr)))
    ∧ parse_variables ("\\a\\1\\b\\2") true = Except.ok [(("a"), ("1")), (("b"), ("2"))] := by
  constructor
  · intro varstr ordered
    unfold parse_variables
    by_cases ht : varstr.data.all (fun c => c.isWhitespace) = true
    · rw [if_pos ht, if_pos ht]
    · rw [if_neg ht, if_neg ht]
      rw [infoLoop_spec]
      by_cases hp : (infoTokens varstr).length % 2 = 0
      · rw [if_pos hp, if_pos hp]
      · rw [if_neg hp, if_neg hp]
  · rfl

/-- Claim C8: next_frame is exactly sugar for enter(0, 0, callback, args) and
delay(seconds) is exactly sugar for enter(seconds, 0, callback, args) on the
frame scheduler; a task scheduled via next_frame during the pump at tick T is
not among the tasks fired by that pump and fires on the pump at tick T + 1. -/
theorem c8_scheduler (cb T d : Nat) (s : Sched)
    (hseq : ∀ u ∈ s.queue, u.seq < s.seqc) :
    next_frame cb T s = enter 0 0 cb T s
      ∧ delay d cb T s = enter d 0 cb T s
      ∧ ({ time := T, priority := 0, seq := (pump T s).2.seqc, cb := cb } : Task)
          ∉ (pump T s).1
      ∧ ({ time := T, priority := 0, seq := (pump T s).2.seqc, cb := cb } : Task)
          ∈ (pump (T + 1) (next_frame cb T (pump T s).2)).1 := by
  refine ⟨rfl, rfl, ?_, ?_⟩
  · intro hmem
    have h1 : ({ time := T, priority := 0, seq := (pump T s).2.seqc, cb := cb } : Task)
        ∈ s.queue :=
      List.mem_of_mem_filter ((mem_sortTasks _ _).mp hmem)
    have h2 := hseq _ h1
    exact absurd h2 (by simp [pump])
  · show _ ∈ (pump (T + 1) (next_frame cb T (pump T s).2)).1
    simp only [pump]
    rw [mem_sortTasks]
    apply List.mem_filter.mpr
    constructor
    · show _ ∈ (pump T s).2.queue ++ [_]
      apply List.mem_append_right
      apply List.mem_singleton.mpr
      rfl
    · simp

/-- Witness for C8 on an initially empty scheduler. -/
theorem c8_scheduler_w :
    next_frame 7 5 schedW = enter 0 0 7 5 schedW
      ∧ delay 2 7 5 schedW = enter 2 0 7 5 schedW
      ∧ ({ time := 5, priority := 0, seq := (pump 5 schedW).2.seqc, cb := 7 } : Task)
          ∉ (pump 5 schedW).1
      ∧ ({ time := 5, priority := 0, seq := (pump 5 schedW).2.seqc, cb := 7 } : Task)
          ∈ (pump (5 + 1) (next_frame 7 5 (pump 5 schedW).2)).1 :=
  c8_scheduler 7 5 2 schedW (by decide)

/-- Claim C1: for a plugin present in the registry, a successful unload
dispatches the unload lifecycle event exactly once, recording the registry in
which the plugin is still fully registered (so before any removal); removes
every hook and every command via the plugin's own removal operations, leaving
its hook and command records empty; and deletes the plugin's registry entry. -/
theorem c1_unload_lifecycle (env : Env) (p : String) (s : CoreState)
    (inst : PluginInstance) (hWF : WF s)
    (hmem : List.lookup p s.loaded_plugins = some inst)
    (hdis : env.unloadDispatchErr p = none) :
    (unload_plugin env p s).2 = none
      ∧ (unload_plugin env p s).1.events = s.events ++ [(p, s.loaded_plugins)]
      ∧ List.lookup p s.loaded_plugins = some inst
      ∧ List.lookup p (unload_plugin env p s).1.loaded_plugins = none
      ∧ (cleanup_instance inst).hooks = []
      ∧ (cleanup_instance inst).commands = [] := by
  have hu : unload_plugin env p s =
      ({ loaded_plugins := dictErase (dictInsert s.loaded_plugins p (cleanup_instance inst)) p,
         modules := s.modules, sysModules := s.sysModules,
         events := s.events ++ [(p, s.loaded_plugins)] }, none) := by
    unfold unload_plugin
    rw [hmem, hdis]
  rw [hu]
  obtain ⟨hc1, hc2⟩ := cleanup_instance_empty inst
  exact ⟨rfl, rfl, hmem,
    lookup_dictErase_self _ _ (nodup_keys_dictInsert _ _ _ hWF), hc1, hc2⟩

/-- Witness for C1 on a registry holding one plugin with two hooks and one
command. -/
theorem c1_unload_lifecycle_w :
    (unload_plugin envGood ("p") stateLoaded).2 = none
      ∧ (unload_plugin envGood ("p") stateLoaded).1.events
          = stateLoaded.events ++ [(("p"), stateLoaded.loaded_plugins)]
      ∧ List.lookup ("p") stateLoaded.loaded_plugins = some instA
      ∧ List.lookup ("p") (unload_plugin envGood ("p") stateLoaded).1.loaded_plugins = none
      ∧ (cleanup_instance instA).hooks = []
      ∧ (cleanup_instance instA).commands = [] :=
  c1_unload_lifecycle envGood ("p") stateLoaded instA
    (by show (stateLoaded.loaded_plugins.map Prod.fst).Nodup; decide) (by decide) (by rfl)

/-- Claim C3: reload_plugin first calls unload_plugin; a PluginUnloadError from
that call is swallowed, so reloading a never-loaded plugin (no registry entry,
no cached module) is identical to a plain load_plugin with no error surfaced,
while any other failure during unload propagates to the caller. -/
theorem c3_reload_swallow :
    (∀ (env : Env) (p : String) (s : CoreState),
        List.lookup p s.loaded_plugins = none →
        List.lookup p s.modules = none →
        reload_plugin env p s = load_plugin env p s)
    ∧ (∀ (env : Env) (p : String) (s : CoreState) (inst : PluginInstance) (e : Err),
        List.lookup p s.loaded_plugins = some inst →
        env.unloadDispatchErr p = some e →
        (∀ msg : String, e ≠ Err.pluginUnloadError msg) →
        reload_plugin env p s = (s, some e)) := by
  constructor
  · intro env p s hreg hmod
    have hu : unload_plugin env p s
        = (s, some (Err.pluginUnloadError
            ("Attempted to unload a plugin that is not loaded."))) := by
      unfold unload_plugin
      rw [hreg]
    unfold reload_plugin load_plugin
    show reload_pluginF (Nat.succ 1) env p s = load_pluginF (Nat.succ 2) env p s
    simp only [reload_pluginF, hu, hmod]
    exact load_fresh_fuel env p s hreg 0 2
  · intro env p s inst e hreg hdis hne
    have hu : unload_plugin env p s = (s, some e) := by
      unfold unload_plugin
      rw [hreg, hdis]
    unfold reload_plugin
    show reload_pluginF (Nat.succ 1) env p s = (s, some e)
    simp only [reload_pluginF, hu]

/-- Witness for C3: a never-loaded name reloads like a load, and a raising
unload dispatch propagates through reload unchanged. -/
theorem c3_reload_swallow_w :
    reload_plugin envGood ("q") stateEmpty = load_plugin envGood ("q") stateEmpty
      ∧ reload_plugin envDispatchBoom ("p") stateLoaded
          = (stateLoaded, some (Err.exn ("boom"))) :=
  ⟨c3_reload_swallow.1 envGood ("q") stateEmpty (by rfl) (by rfl),
   c3_reload_swallow.2 envDispatchBoom ("p") stateLoaded instA (Err.exn ("boom"))
     (by decide) (by rfl) (fun msg h => Err.noConfusion h)⟩

/-- Claim C4: a failed load never inserts a registry entry.  A missing source
file raises PluginLoadError with the whole state untouched; any failure after
the import (missing identically-named member, member not a Plugin subclass,
raising constructor) leaves the module cached in the ModuleCache but no
registry entry for the name. -/
theorem c4_failed_load_no_registry :
    (∀ (env : Env) (p : String) (s : CoreState),
        env.fileExists p = false →
        load_plugin env p s = (s, some (Err.pluginLoadError ("No such plugin exists."))))
    ∧ (∀ (env : Env) (p : String) (s : CoreState) (m : Module) (s1 : CoreState),
        env.fileExists p = true →
        List.lookup p s.loaded_plugins = none →
        importModule env p s = some (m, s1) →
        (m.hasPluginMember = false ∨ m.memberIsPluginType = false ∨ m.ctor = none) →
        (load_plugin env p s).2.isSome = true
          ∧ List.lookup p (load_plugin env p s).1.modules = some m
          ∧ List.lookup p (load_plugin env p s).1.loaded_plugins = none) := by
  constructor
  · intro env p s hfile
    unfold load_plugin
    show load_pluginF (Nat.succ 2) env p s = _
    simp only [load_pluginF, hfile]
    simp
  · intro env p s m s1 hfile hreg himp hbad
    obtain ⟨hload, -, -⟩ := importModule_state env p s m s1 himp
    have hmain : ∃ e : Err, load_plugin env p s
        = ({ s1 with modules := dictInsert s1.modules p m }, some e) := by
      unfold load_plugin
      show ∃ e, load_pluginF (Nat.succ 2) env p s = _
      rcases hbad with hb | hb | hb
      · simp [load_pluginF, hfile, hreg, himp, hb]
      · cases hm : m.hasPluginMember with
        | false => simp [load_pluginF, hfile, hreg, himp, hm]
        | true => simp [load_pluginF, hfile, hreg, himp, hm, hb]
      · cases hm : m.hasPluginMember with
        | false => simp [load_pluginF, hfile, hreg, himp, hm]
        | true =>
          cases ht : m.memberIsPluginType with
          | false => simp [load_pluginF, hfile, hreg, himp, hm, ht]
          | true => simp [load_pluginF, hfile, hreg, himp, hm, ht, hb]
    obtain ⟨e, he⟩ := hmain
    rw [he]
    refine ⟨rfl, ?_, ?_⟩
    · exact lookup_dictInsert_self s1.modules p m
    · show List.lookup p s1.loaded_plugins = none
      rw [hload]
      exact hreg

/-- Witness for C4: a missing source file, and a module whose constructor
raises (cached module, no registry entry). -/
theorem c4_failed_load_no_registry_w :
    load_plugin envNoFile ("q") stateEmpty
        = (stateEmpty, some (Err.pluginLoadError ("No such plugin exists.")))
      ∧ ((load_plugin envBadCtor ("p") stateEmpty).2.isSome = true
          ∧ List.lookup ("p") (load_plugin envBadCtor ("p") stateEmpty).1.modules
              = some moduleNoCtor
          ∧ List.lookup ("p") (load_plugin envBadCtor ("p") stateEmpty).1.loaded_plugins
              = none) :=
  ⟨c4_failed_load_no_registry.1 envNoFile ("q") stateEmpty (by rfl),
   c4_failed_load_no_registry.2 envBadCtor ("p") stateEmpty moduleNoCtor
     { stateEmpty with
         sysModules := dictInsert stateEmpty.sysModules (qualName envBadCtor ("p")) moduleNoCtor }
     (by rfl) (by rfl) (by rfl) (Or.inr (Or.inr (by rfl)))⟩

/-- Claim C2: for a name already present in the registry whose source file
resolves, load_plugin is redirected to reload_plugin instead of raising a
duplicate-instance error; and two successful load_plugin calls in a row leave
exactly one registry entry for the name. -/
theorem c2_load_idempotent_by_reload :
    (∀ (env : Env) (p : String) (s : CoreState),
        env.fileExists p = true →
        (List.lookup p s.loaded_plugins).isSome = true →
        load_plugin env p s = reload_plugin env p s)
    ∧ (∀ (env : Env) (p : String) (s0 s1 s2 : CoreState),
        WF s0 →
        load_plugin env p s0 = (s1, none) →
        load_plugin env p s1 = (s2, none) →
        countKey p s2.loaded_plugins = 1) := by
  constructor
  · intro env p s hfile hmem
    unfold load_plugin reload_plugin
    show load_pluginF (Nat.succ 2) env p s = reload_pluginF 2 env p s
    simp only [load_pluginF, hfile, hmem]
    simp
  · intro env p s0 s1 s2 hWF h1 h2
    obtain ⟨-, hWF1⟩ := load_plugin_ok env p s0 s1 hWF h1
    exact (load_plugin_ok env p s1 s2 hWF1 h2).1

/-- Witness for C2: the redirect on a loaded plugin, and two loads from the
empty state ending with exactly one registry entry. -/
theorem c2_load_idempotent_by_reload_w :
    load_plugin envGood ("p") stateLoaded = reload_plugin envGood ("p") stateLoaded
      ∧ countKey ("p") stateReloaded.loaded_plugins = 1 :=
  ⟨c2_load_idempotent_by_reload.1 envGood ("p") stateLoaded (by rfl) (by decide),
   c2_load_idempotent_by_reload.2 envGood ("p") stateEmpty stateLoaded stateReloaded
     (by show (stateEmpty.loaded_plugins.map Prod.fst).Nodup; decide) (by decide) (by decide)⟩

/-- Claim C7 (counterexample): the claim says the missing-plugins-directory
failure is a configuration error and not a load error, but at a concrete
missing directory load_preset_plugins raises precisely PluginLoadError
(while indeed loading no plugins). -/
theorem c7_load_preset_cex :
    isPluginLoadError (load_preset_plugins envNoDir stateEmpty).2 = true
      ∧ (load_preset_plugins envNoDir stateEmpty).1 = stateEmpty := by
  constructor
  · rfl
  · rfl

/-- Claim C7 (amended): when the plugins directory does not exist,
load_preset_plugins fails fatally with PluginLoadError naming the directory
and loads no plugins (the state is returned untouched); when the directory
exists it filters out entries of the comma-split plugin list whose
directory-qualified unstripped names are already loaded modules, and calls
load_plugin on each remaining stripped name in the given order. -/
theorem c7_load_preset_amended (env : Env) (s : CoreState) :
    load_preset_plugins env s =
      if env.pluginsDirExists then runLoads env (presetList env s) s
      else (s, some (Err.pluginLoadError
        (("Cannot find the plugins directory ") ++ env.pluginsPathAbs ++ (".")))) := rfl

end Minqlx
